import Mathlib

/-!
Shallow embedding of the budget-tracker core (src/app.py) in Lean 4.

Modelling conventions:
- Python floats are modelled as rationals; the 1e-9 tolerance appearing in
  the caller-side validation code is the rational 1 / 10^9.
- Python dicts (insertion-ordered, unique keys) are association lists; dict
  assignment replaces an existing key in place and otherwise appends, dict
  deletion removes the entries whose key matches, and membership and lookup
  scan from the front.
- Python str.strip is the String.strip defined below.
- The emoji strings returned by calc_status are renamed to an enumeration:
  info for the information emoji, safe for the check mark, alert for the
  warning sign, warning for the orange diamond, danger for the stop sign.
- Dates are plain strings (only equality of dates matters to the core).
-/

/-- Python str.strip: removes leading and trailing whitespace. (Stated on the
character list so that concrete instances reduce in the kernel.) -/
def String.strip (s : String) : String :=
  String.mk (((s.data.dropWhile Char.isWhitespace).reverse.dropWhile Char.isWhitespace).reverse)

namespace BudgetApp

/-- The 1e-9 floating-point tolerance used by the validated UI paths. -/
def eps : ℚ := 1 / 1000000000

/-- Status buckets; calc_status in the source returns the corresponding emoji. -/
inductive Status where
  | info
  | safe
  | alert
  | warning
  | danger
deriving DecidableEq

/-- Source calc_status (app.py lines 12-22). -/
def calc_status (spent limit : ℚ) : Status :=
  if limit ≤ 0 then .info
  else
    let ratio := spent / limit
    if ratio < 1/2 then .safe
    else if ratio < 4/5 then .alert
    else if ratio < 1 then .warning
    else .danger

/-- Source Category dataclass (app.py lines 37-41). -/
structure Category where
  name : String
  limit_type : String
  value : ℚ
deriving DecidableEq

/-- Source Category.calc_limit (app.py lines 43-46). -/
def Category.calc_limit (c : Category) (monthly_budget : ℚ) : ℚ :=
  if c.limit_type = "percent" then monthly_budget * (c.value / 100)
  else c.value

/-- Source Expense dataclass (app.py lines 53-59). -/
structure Expense where
  expense_id : Nat
  d : String
  amount : ℚ
  category : String
  description : String
deriving DecidableEq

/-- Association-list membership, Python `k in d`. -/
def dictMem (d : List (String × Category)) (k : String) : Bool :=
  d.any (fun p => p.fst == k)

/-- Association-list lookup, Python `d[k]` as an Option. -/
def dictLookup (d : List (String × Category)) (k : String) : Option Category :=
  (d.find? (fun p => p.fst == k)).map Prod.snd

/-- Python `del d[k]`: drops the entry with key k (unique in a real dict). -/
def dictErase (d : List (String × Category)) (k : String) : List (String × Category) :=
  d.filter (fun p => !(p.fst == k))

/-- Source BudgetMonth state (app.py lines 61-67). -/
structure BudgetMonth where
  month_key : String
  budget : Option ℚ
  categories : List (String × Category)
  expenses : List Expense
  next_expense_id : Nat
deriving DecidableEq

/-- Source BudgetMonth constructor (app.py lines 62-67). -/
def BudgetMonth.mkEmpty (key : String) : BudgetMonth :=
  ⟨key, none, [], [], 1⟩

/-- Source BudgetMonth.is_setup (app.py lines 69-70). -/
def BudgetMonth.is_setup (m : BudgetMonth) : Bool :=
  m.budget.isSome && decide (0 < m.categories.length)

/-- Source BudgetMonth.set_budget (app.py lines 72-73). -/
def BudgetMonth.set_budget (m : BudgetMonth) (new_budget : ℚ) : BudgetMonth :=
  { m with budget := some new_budget }

/-- Source BudgetMonth.add_category (app.py lines 75-80); returns the new
state together with the Python boolean result. -/
def BudgetMonth.add_category (m : BudgetMonth) (cat : Category) : BudgetMonth × Bool :=
  let name := cat.name.strip
  if name = "" ∨ dictMem m.categories name then (m, false)
  else ({ m with categories := m.categories ++ [(name, cat)] }, true)

/-- Source BudgetMonth.update_category_limit (app.py lines 82-87). -/
def BudgetMonth.update_category_limit (m : BudgetMonth) (name limit_type : String)
    (value : ℚ) : BudgetMonth × Bool :=
  if dictMem m.categories name then
    ({ m with categories :=
        m.categories.map (fun p =>
          if p.fst == name then (p.fst, { p.snd with limit_type := limit_type, value := value })
          else p) }, true)
  else (m, false)

/-- Source BudgetMonth.category_has_expenses (app.py lines 89-90). -/
def BudgetMonth.category_has_expenses (m : BudgetMonth) (name : String) : Bool :=
  m.expenses.any (fun e => e.category == name)

/-- Source BudgetMonth.delete_category (app.py lines 92-104); result is
(new state, success flag, message). -/
def BudgetMonth.delete_category (m : BudgetMonth) (name : String) (move_to_other : Bool) :
    BudgetMonth × Bool × String :=
  if ¬ dictMem m.categories name then
    (m, false, "Category not found.")
  else if m.category_has_expenses name then
    if ¬ move_to_other then
      (m, false, "Deletion cancelled.")
    else
      let cats :=
        if dictMem m.categories "Other" then m.categories
        else m.categories ++ [("Other", Category.mk "Other" "fixed" (10^18))]
      let exps := m.expenses.map (fun e =>
        if e.category == name then { e with category := "Other" } else e)
      ({ m with categories := dictErase cats name, expenses := exps },
       true, "Category " ++ name ++ " deleted successfully.")
  else
    ({ m with categories := dictErase m.categories name },
     true, "Category " ++ name ++ " deleted successfully.")

/-- Source BudgetMonth.add_expense (app.py lines 106-116). -/
def BudgetMonth.add_expense (m : BudgetMonth) (d : String) (amount : ℚ)
    (category description : String) : BudgetMonth × Expense :=
  let exp : Expense := ⟨m.next_expense_id, d, amount, category, description.strip⟩
  ({ m with expenses := m.expenses ++ [exp],
            next_expense_id := m.next_expense_id + 1 }, exp)

/-- Removes the first expense with the given id, Python list.pop at the found
index (app.py lines 118-123). -/
def removeFirstById : List Expense → Nat → List Expense × Bool
  | [], _ => ([], false)
  | e :: rest, i =>
    if e.expense_id == i then (rest, true)
    else
      let r := removeFirstById rest i
      (e :: r.1, r.2)

/-- Source BudgetMonth.delete_expense_by_id (app.py lines 118-123). -/
def BudgetMonth.delete_expense_by_id (m : BudgetMonth) (expense_id : Nat) :
    BudgetMonth × Bool :=
  let r := removeFirstById m.expenses expense_id
  ({ m with expenses := r.1 }, r.2)

/-- Source BudgetMonth.get_expense_by_id (app.py lines 125-129). -/
def BudgetMonth.get_expense_by_id (m : BudgetMonth) (expense_id : Nat) : Option Expense :=
  m.expenses.find? (fun e => e.expense_id == expense_id)

/-- Source BudgetMonth.total_expenses (app.py lines 131-132). -/
def BudgetMonth.total_expenses (m : BudgetMonth) : ℚ :=
  (m.expenses.map (fun e => e.amount)).sum

/-- Lookup with default 0.0, Python totals.get(k, 0.0). -/
def qLookupD (t : List (String × ℚ)) (k : String) : ℚ :=
  ((t.find? (fun p => p.fst == k)).map Prod.snd).getD 0

/-- Python dict assignment on a totals dict: replaces in place or appends. -/
def qDictSet : List (String × ℚ) → String → ℚ → List (String × ℚ)
  | [], k, v => [(k, v)]
  | p :: rest, k, v =>
    if p.fst == k then (k, v) :: rest
    else p :: qDictSet rest k v

/-- Source BudgetMonth.total_by_category (app.py lines 134-138). -/
def BudgetMonth.total_by_category (m : BudgetMonth) : List (String × ℚ) :=
  m.expenses.foldl
    (fun totals e => qDictSet totals e.category (qLookupD totals e.category + e.amount)) []

/-- The four counters of status_summary_counts; the source dict has exactly
the keys safe, alert, warning, danger (the info emoji is absent). -/
structure StatusCounts where
  safe : Nat
  alert : Nat
  warning : Nat
  danger : Nat
deriving DecidableEq

/-- One iteration of the loop in status_summary_counts: bump the counter of
the icon if that icon is a key of the counts dict (info is not). -/
def bumpStatus (counts : StatusCounts) (s : Status) : StatusCounts :=
  match s with
  | .safe => { counts with safe := counts.safe + 1 }
  | .alert => { counts with alert := counts.alert + 1 }
  | .warning => { counts with warning := counts.warning + 1 }
  | .danger => { counts with danger := counts.danger + 1 }
  | .info => counts

/-- Source BudgetMonth.status_summary_counts (app.py lines 156-167). -/
def BudgetMonth.status_summary_counts (m : BudgetMonth) : StatusCounts :=
  match m.budget with
  | none => ⟨0, 0, 0, 0⟩
  | some b =>
    m.categories.foldl
      (fun counts p =>
        bumpStatus counts (calc_status (qLookupD m.total_by_category p.fst) (p.snd.calc_limit b)))
      ⟨0, 0, 0, 0⟩

/-- Source BudgetTrackerApp state (app.py lines 169-171); default_categories
play no role in the claims. -/
structure BudgetTrackerApp where
  months : List (String × BudgetMonth)
deriving DecidableEq

/-- Source BudgetTrackerApp.get_month (app.py lines 181-184): lazily creates
the month; returns the (possibly grown) registry and the month. -/
def BudgetTrackerApp.get_month (app : BudgetTrackerApp) (month_key : String) :
    BudgetTrackerApp × BudgetMonth :=
  match app.months.find? (fun p => p.fst == month_key) with
  | some p => (app, p.snd)
  | none =>
    let m := BudgetMonth.mkEmpty month_key
    (⟨app.months ++ [(month_key, m)]⟩, m)

/-- In-place edit of the first expense with the given id, modelling the edit
form of the Manage Expenses expander (app.py lines 573-583): the form writes
amount, category and description of the object found by get_expense_by_id. -/
def editFirstById : List Expense → Nat → ℚ → String → String → List Expense
  | [], _, _, _, _ => []
  | e :: rest, i, a, c, ds =>
    if e.expense_id == i then
      { e with amount := a, category := c, description := ds } :: rest
    else e :: editFirstById rest i a c ds

/-- An expense operation issued through the application UI. -/
inductive LedgerOp where
  | addExp (d : String) (amount : ℚ) (category description : String)
  | delExp (expense_id : Nat)
  | editExp (expense_id : Nat) (amount : ℚ) (category description : String)

/-- Whether a ledger operation is an edit. -/
def LedgerOp.isEdit : LedgerOp → Bool
  | .editExp _ _ _ _ => true
  | _ => false

/-- One expense operation as the UI validates and applies it to the month it
targets. The add path (app.py lines 348-366) rejects non-positive amounts,
months that are not set up, and any add that would push the total past
budget + 1e-9; on rejection the state is unchanged. The delete path (app.py
lines 566-569) and the edit path (app.py lines 573-583) perform no budget
check; the edit form only enforces its number-input floor of 0.01. -/
def applyLedgerOp (m : BudgetMonth) (op : LedgerOp) : BudgetMonth :=
  match op with
  | .addExp d a c ds =>
    if a ≤ 0 then m
    else if ¬ m.is_setup then m
    else
      match m.budget with
      | none => m
      | some b =>
        if m.total_expenses + a > b + eps then m
        else (m.add_expense d a c ds).1
  | .delExp i => (m.delete_expense_by_id i).1
  | .editExp i a c ds =>
    if a < 1/100 then m
    else { m with expenses := editFirstById m.expenses i a c ds }

/-- Running a sequence of UI expense operations. -/
def runLedger (m : BudgetMonth) (ops : List LedgerOp) : BudgetMonth :=
  ops.foldl applyLedgerOp m

/-- The candidate cost in currency computed by the settings add-category path
(app.py line 520) and the setup path (app.py line 295). -/
def requested_sar (limit_type : String) (value budget : ℚ) : ℚ :=
  if limit_type = "fixed" then value else value / 100 * budget

/-- Sum of category limits under a budget: the allocated_sar of the settings
path (app.py line 494). -/
def allocated_sar (cats : List (String × Category)) (b : ℚ) : ℚ :=
  (cats.map (fun p => p.snd.calc_limit b)).sum

/-- The status of one category row as computed inside status_summary_counts:
spend total of the category (0.0 default) against its limit under the budget. -/
def statusOfCat (m : BudgetMonth) (b : ℚ) (p : String × Category) : Status :=
  calc_status (qLookupD m.total_by_category p.fst) (p.snd.calc_limit b)

/-- The spend-ceiling invariant maintained by the validated expense paths:
the expense total is within budget + 1e-9 and every stored amount is positive. -/
def ledgerInv (m : BudgetMonth) (b : ℚ) : Prop :=
  m.total_expenses ≤ b + eps ∧ ∀ e ∈ m.expenses, 0 < e.amount

/-- A raw core expense operation (no UI validation), for the id-assignment
claims about add_expense and delete_expense_by_id. -/
inductive IdOp where
  | add (d : String) (amount : ℚ) (category description : String)
  | del (expense_id : Nat)

/-- Runs raw core expense operations, collecting the ids assigned by each
add_expense in order. -/
def runIdOps : BudgetMonth → List IdOp → BudgetMonth × List Nat
  | m, [] => (m, [])
  | m, .add d a c ds :: rest =>
    let r := m.add_expense d a c ds
    let rr := runIdOps r.1 rest
    (rr.1, r.2.expense_id :: rr.2)
  | m, .del i :: rest => runIdOps (m.delete_expense_by_id i).1 rest

/-- Number of add operations in a raw operation sequence. -/
def countAdds : List IdOp → Nat
  | [] => 0
  | .add _ _ _ _ :: rest => countAdds rest + 1
  | .del _ :: rest => countAdds rest

/-- Id bookkeeping invariant of a month: every stored id is below the next
counter and stored ids strictly increase along the list. -/
def idInv (m : BudgetMonth) : Prop :=
  (∀ e ∈ m.expenses, e.expense_id < m.next_expense_id) ∧
  (m.expenses.map (fun e => e.expense_id)).Pairwise (· < ·)

/-- A month whose only category is Other, with one expense filed under it. -/
def monthOnlyOther : BudgetMonth :=
  ⟨"2024-01", some 1000, [("Other", ⟨"Other", "fixed", 100⟩)],
   [⟨1, "2024-01-05", 50, "Other", ""⟩], 2⟩

/-- A set-up month with a Food category and one 100 SAR expense, budget 1000. -/
def monthFood : BudgetMonth :=
  ⟨"2024-03", some 1000, [("Food", ⟨"Food", "fixed", 500⟩)],
   [⟨1, "2024-03-05", 100, "Food", ""⟩], 2⟩

/-- A set-up month whose single category has a fixed limit of 0 (so its
status is info), budget 100, no expenses. -/
def monthZeroLimit : BudgetMonth :=
  ⟨"2024-02", some 100, [("Free", ⟨"Free", "fixed", 0⟩)], [], 1⟩

/-- A set-up month with budget 1000 and a single fixed-400 category. -/
def monthAlloc : BudgetMonth :=
  ⟨"2024-05", some 1000, [("Food", ⟨"Food", "fixed", 400⟩)], [], 1⟩

/-- An empty registry. -/
def emptyApp : BudgetTrackerApp := ⟨[]⟩

/-! Helper lemmas about the association-list dictionary operations. -/

lemma add_category_succ_iff (m : BudgetMonth) (cat : Category) :
    (m.add_category cat).2 = true ↔
      (cat.name.strip ≠ "" ∧ dictMem m.categories cat.name.strip = false) := by
  unfold BudgetMonth.add_category
  dsimp only
  split_ifs with h
  · simp only [Bool.false_eq_true, false_iff]
    rcases h with h | h
    · intro hc; exact hc.1 h
    · intro hc; rw [hc.2] at h; exact Bool.false_ne_true h
  · push_neg at h
    simp only [true_iff]
    exact ⟨h.1, Bool.not_eq_true _ ▸ Bool.eq_false_iff.mpr h.2⟩

lemma add_category_fail_frame (m : BudgetMonth) (cat : Category)
    (h : (m.add_category cat).2 = false) : (m.add_category cat).1 = m := by
  unfold BudgetMonth.add_category at *
  dsimp only at h ⊢
  split_ifs at h ⊢ with hc
  all_goals rfl

lemma add_category_succ_cats (m : BudgetMonth) (cat : Category)
    (h : (m.add_category cat).2 = true) :
    (m.add_category cat).1.categories = m.categories ++ [(cat.name.strip, cat)] := by
  unfold BudgetMonth.add_category at *
  dsimp only at h ⊢
  split_ifs at h ⊢ with hc
  all_goals rfl

lemma find?_append_of_none {α : Type} (l₁ l₂ : List α) (p : α → Bool)
    (h : l₁.find? p = none) : (l₁ ++ l₂).find? p = l₂.find? p := by
  induction l₁ with
  | nil => rfl
  | cons a rest ih =>
    simp only [List.cons_append, List.find?_cons] at h ⊢
    cases hp : p a
    · simp only [hp] at h ⊢
      exact ih h
    · simp [hp] at h

lemma dictMem_false_find?_none (d : List (String × Category)) (k : String)
    (h : dictMem d k = false) : d.find? (fun p => p.fst == k) = none := by
  rw [List.find?_eq_none]
  intro p hp
  unfold dictMem at h
  rw [Bool.eq_false_iff] at h
  intro hk
  exact h (List.any_eq_true.mpr ⟨p, hp, hk⟩)

lemma dictLookup_append_self (d : List (String × Category)) (k : String) (c : Category)
    (h : dictMem d k = false) : dictLookup (d ++ [(k, c)]) k = some c := by
  unfold dictLookup
  rw [find?_append_of_none _ _ _ (dictMem_false_find?_none d k h)]
  simp [List.find?_cons]

/-- C10: set_budget replaces the budget figure and changes nothing else:
categories, expenses and the next-expense-id counter are untouched. -/
theorem set_budget_frame (m : BudgetMonth) (a : ℚ) :
    (m.set_budget a).budget = some a ∧
    (m.set_budget a).categories = m.categories ∧
    (m.set_budget a).expenses = m.expenses ∧
    (m.set_budget a).next_expense_id = m.next_expense_id :=
  ⟨rfl, rfl, rfl, rfl⟩

/-- C3: calc_status returns info when the limit is non-positive, and otherwise
buckets the ratio spent/limit with lower-inclusive boundaries: safe below 0.50,
alert from 0.50 up to but excluding 0.80, warning from 0.80 up to but excluding
1.00, danger from 1.00 on. In particular (0,0) gives info. -/
theorem calc_status_buckets (spent limit : ℚ) :
    (limit ≤ 0 → calc_status spent limit = Status.info) ∧
    (0 < limit →
      ((calc_status spent limit = Status.safe ↔ spent / limit < 1/2) ∧
       (calc_status spent limit = Status.alert ↔
          1/2 ≤ spent / limit ∧ spent / limit < 4/5) ∧
       (calc_status spent limit = Status.warning ↔
          4/5 ≤ spent / limit ∧ spent / limit < 1) ∧
       (calc_status spent limit = Status.danger ↔ 1 ≤ spent / limit))) := by
  unfold calc_status
  dsimp only
  constructor
  · intro h; simp [h]
  · intro h
    rw [if_neg (not_le.mpr h)]
    split_ifs with h1 h2 h3
    · refine ⟨⟨fun hh => h1, fun hh => rfl⟩, ⟨fun hh => hh.elim, fun hh => ?_⟩,
              ⟨fun hh => hh.elim, fun hh => ?_⟩, ⟨fun hh => hh.elim, fun hh => ?_⟩⟩
      · exfalso; linarith [hh.1]
      · exfalso; linarith [hh.1]
      · exfalso; linarith
    · refine ⟨⟨fun hh => hh.elim, fun hh => ?_⟩,
              ⟨fun hh => ⟨by linarith, h2⟩, fun hh => rfl⟩,
              ⟨fun hh => hh.elim, fun hh => ?_⟩, ⟨fun hh => hh.elim, fun hh => ?_⟩⟩
      · exfalso; linarith
      · exfalso; linarith [hh.1]
      · exfalso; linarith
    · refine ⟨⟨fun hh => hh.elim, fun hh => ?_⟩, ⟨fun hh => hh.elim, fun hh => ?_⟩,
              ⟨fun hh => ⟨by linarith, h3⟩, fun hh => rfl⟩,
              ⟨fun hh => hh.elim, fun hh => ?_⟩⟩
      · exfalso; linarith
      · exfalso; linarith [hh.2]
      · exfalso; linarith
    · refine ⟨⟨fun hh => hh.elim, fun hh => ?_⟩, ⟨fun hh => hh.elim, fun hh => ?_⟩,
              ⟨fun hh => hh.elim, fun hh => ?_⟩, ⟨fun hh => by linarith, fun hh => rfl⟩⟩
      · exfalso; linarith
      · exfalso; linarith [hh.2]
      · exfalso; linarith [hh.2]

/-- Witness for C3 at concrete inputs: (0,0) is info and (50,100) is alert. -/
theorem calc_status_buckets_witness :
    calc_status 0 0 = Status.info ∧ calc_status 50 100 = Status.alert :=
  ⟨(calc_status_buckets 0 0).1 (by norm_num),
   ((calc_status_buckets 50 100).2 (by norm_num)).2.1.mpr (by norm_num)⟩

/-- C6: add_category succeeds and inserts the category iff the name is
non-empty after stripping and the stripped name is not already a key of the
category dict; on failure it returns false and leaves the month unchanged. -/
theorem add_category_spec (m : BudgetMonth) (cat : Category) :
    ((m.add_category cat).2 = true ↔
      (cat.name.strip ≠ "" ∧ dictMem m.categories cat.name.strip = false)) ∧
    ((m.add_category cat).2 = false → (m.add_category cat).1 = m) ∧
    ((m.add_category cat).2 = true →
      (m.add_category cat).1.categories = m.categories ++ [(cat.name.strip, cat)]) :=
  ⟨add_category_succ_iff m cat, add_category_fail_frame m cat, add_category_succ_cats m cat⟩

/-- Witness for C6: adding Food to an empty month succeeds and inserts it. -/
theorem add_category_spec_witness :
    ((BudgetMonth.mkEmpty "2024-01").add_category ⟨"Food", "fixed", 100⟩).2 = true :=
  (add_category_spec (BudgetMonth.mkEmpty "2024-01") ⟨"Food", "fixed", 100⟩).1.mpr
    ⟨by decide, by decide⟩

/-- C9: when the candidate name strips to a new non-empty name, add_category
stores the entry under the stripped key while the stored Category object keeps
the original untrimmed name string. -/
theorem add_category_key_vs_stored_name (m : BudgetMonth) (cat : Category)
    (hne : cat.name.strip ≠ "") (hnew : dictMem m.categories cat.name.strip = false) :
    (m.add_category cat).2 = true ∧
    dictLookup (m.add_category cat).1.categories cat.name.strip = some cat ∧
    ((dictLookup (m.add_category cat).1.categories cat.name.strip).map Category.name)
      = some cat.name := by
  have hok : (m.add_category cat).2 = true := add_category_succ_iff m cat |>.mpr ⟨hne, hnew⟩
  have hcats := add_category_succ_cats m cat hok
  have hlook : dictLookup (m.add_category cat).1.categories cat.name.strip = some cat := by
    rw [hcats]; exact dictLookup_append_self m.categories cat.name.strip cat hnew
  exact ⟨hok, hlook, by rw [hlook]; rfl⟩

/-- Witness for C9: the name with surrounding blanks is stored under the
stripped key Food while the object keeps its padded name. -/
theorem add_category_key_vs_stored_name_witness :
    dictLookup ((BudgetMonth.mkEmpty "2024-01").add_category
        ⟨" Food ", "fixed", 100⟩).1.categories " Food ".strip
      = some ⟨" Food ", "fixed", 100⟩ :=
  (add_category_key_vs_stored_name (BudgetMonth.mkEmpty "2024-01")
    ⟨" Food ", "fixed", 100⟩ (by decide) (by decide)).2.1

lemma allocated_sar_append (l : List (String × Category)) (k : String) (c : Category)
    (b : ℚ) : allocated_sar (l ++ [(k, c)]) b = allocated_sar l b + c.calc_limit b := by
  simp [allocated_sar]

/-- C4: a successful add_category behind the settings-path guard (candidate
cost in currency at most the remaining allocation plus 1e-9) leaves the sum
of category limits at most budget + 1e-9. -/
theorem add_category_alloc_ceiling (m : BudgetMonth) (b : ℚ) (name ty : String) (v : ℚ)
    (hb : m.budget = some b)
    (hty : ty = "percent" ∨ ty = "fixed")
    (hguard : requested_sar ty v b ≤ (b - allocated_sar m.categories b) + eps)
    (hok : (m.add_category ⟨name, ty, v⟩).2 = true) :
    allocated_sar (m.add_category ⟨name, ty, v⟩).1.categories b ≤ b + eps := by
  rw [add_category_succ_cats m ⟨name, ty, v⟩ hok]
  rw [allocated_sar_append]
  have hreq : Category.calc_limit ⟨name, ty, v⟩ b = requested_sar ty v b := by
    rcases hty with h | h
    · subst h
      show (if "percent" = "percent" then b * (v / 100) else v) = requested_sar "percent" v b
      rw [if_pos rfl]
      unfold requested_sar
      rw [if_neg (by decide)]
      ring
    · subst h
      show (if "fixed" = "percent" then b * (v / 100) else v) = requested_sar "fixed" v b
      rw [if_neg (by decide)]
      unfold requested_sar
      rw [if_pos rfl]
  rw [hreq]
  linarith

/-- Witness for C4: adding a fixed-400 category to a budget-1000 month that
already allocates 400 passes the guard and keeps the allocation under the
ceiling. -/
theorem add_category_alloc_ceiling_witness :
    allocated_sar (monthAlloc.add_category ⟨"Extra", "fixed", 400⟩).1.categories 1000
      ≤ 1000 + eps :=
  add_category_alloc_ceiling monthAlloc 1000 "Extra" "fixed" 400 rfl (Or.inr rfl)
    (by simp [requested_sar, allocated_sar, monthAlloc, Category.calc_limit]; norm_num [eps])
    (by decide)

lemma get_month_eq_of_found (app : BudgetTrackerApp) (key : String)
    (p : String × BudgetMonth)
    (h : app.months.find? (fun q => q.fst == key) = some p) :
    app.get_month key = (app, p.snd) := by
  unfold BudgetTrackerApp.get_month
  rw [h]

lemma get_month_eq_of_missing (app : BudgetTrackerApp) (key : String)
    (h : app.months.find? (fun q => q.fst == key) = none) :
    app.get_month key
      = (⟨app.months ++ [(key, BudgetMonth.mkEmpty key)]⟩, BudgetMonth.mkEmpty key) := by
  unfold BudgetTrackerApp.get_month
  rw [h]

/-- C8: get_month called twice with one key gives the same month and does not
change the registry the second time, and with distinct keys to start the
registry keys stay distinct (at most one month per key). -/
theorem get_month_idempotent (app : BudgetTrackerApp) (key : String)
    (hnd : (app.months.map Prod.fst).Nodup) :
    ((app.get_month key).1.get_month key).2 = (app.get_month key).2 ∧
    ((app.get_month key).1.get_month key).1 = (app.get_month key).1 ∧
    ((app.get_month key).1.months.map Prod.fst).Nodup := by
  cases h : app.months.find? (fun q => q.fst == key) with
  | some p =>
    refine ⟨?_, ?_, ?_⟩ <;> simp [get_month_eq_of_found app key p h, hnd]
  | none =>
    have e1 := get_month_eq_of_missing app key h
    have h2 : (app.months ++ [(key, BudgetMonth.mkEmpty key)]).find?
        (fun q => q.fst == key) = some (key, BudgetMonth.mkEmpty key) := by
      rw [find?_append_of_none _ _ _ h]
      simp [List.find?_cons]
    have e2 := get_month_eq_of_found ⟨app.months ++ [(key, BudgetMonth.mkEmpty key)]⟩ key
      (key, BudgetMonth.mkEmpty key) h2
    have hk : ∀ q ∈ app.months, q.fst ≠ key := by
      intro q hq
      have hq2 := List.find?_eq_none.mp h q hq
      simpa using hq2
    refine ⟨?_, ?_, ?_⟩
    · rw [e1]
      show ((⟨app.months ++ [(key, BudgetMonth.mkEmpty key)]⟩ :
          BudgetTrackerApp).get_month key).2 = BudgetMonth.mkEmpty key
      rw [e2]
    · rw [e1]
      show ((⟨app.months ++ [(key, BudgetMonth.mkEmpty key)]⟩ :
          BudgetTrackerApp).get_month key).1
          = (⟨app.months ++ [(key, BudgetMonth.mkEmpty key)]⟩ : BudgetTrackerApp)
      rw [e2]
    · rw [e1]
      show ((app.months ++ [(key, BudgetMonth.mkEmpty key)]).map Prod.fst).Nodup
      rw [List.map_append, List.nodup_append]
      refine ⟨hnd, by simp, ?_⟩
      intro a ha hb2
      rcases List.mem_map.mp ha with ⟨q, hq, rfl⟩
      simp only [List.map_cons, List.map_nil, List.mem_singleton] at hb2
      exact hk q hq hb2

/-- Witness for C8: the empty registry, asked twice for one key, returns the
same month both times. -/
theorem get_month_idempotent_witness :
    ((emptyApp.get_month "2024-06").1.get_month "2024-06").2
      = (emptyApp.get_month "2024-06").2 :=
  (get_month_idempotent emptyApp "2024-06" (by decide)).1

lemma dictMem_erase_self (d : List (String × Category)) (k : String) :
    dictMem (dictErase d k) k = false := by
  unfold dictMem dictErase
  rw [Bool.eq_false_iff]
  intro hany
  rcases List.any_eq_true.mp hany with ⟨p, hp, hk⟩
  rcases List.mem_filter.mp hp with ⟨hpd, hnk⟩
  rw [hk] at hnk
  simp at hnk

lemma dictMem_erase_ne (d : List (String × Category)) (k k2 : String) (h : k2 ≠ k) :
    dictMem (dictErase d k) k2 = dictMem d k2 := by
  unfold dictMem dictErase
  induction d with
  | nil => rfl
  | cons p rest ih =>
    rw [List.filter_cons, List.any_cons]
    by_cases hpk : p.fst = k
    · have hk2 : (p.fst == k2) = false := by
        rw [beq_eq_false_iff_ne, hpk]
        exact fun hc => h hc.symm
      rw [if_neg (by simp [hpk]), hk2, Bool.false_or]
      exact ih
    · rw [if_pos (by simp [hpk]), List.any_cons, ih]

lemma dictErase_append (d d2 : List (String × Category)) (k : String) :
    dictErase (d ++ d2) k = dictErase d k ++ dictErase d2 k := by
  unfold dictErase
  rw [List.filter_append]

lemma dictMem_append_single (d : List (String × Category)) (k k2 : String) (c : Category) :
    dictMem (d ++ [(k2, c)]) k = (dictMem d k || (k2 == k)) := by
  unfold dictMem
  rw [List.any_append]
  simp

lemma total_map_reassign (es : List Expense) (name : String) :
    ((es.map (fun e =>
        if e.category == name then { e with category := "Other" } else e)).map
      (fun e => e.amount)).sum = (es.map (fun e => e.amount)).sum := by
  rw [List.map_map]
  have hcomp : ((fun e : Expense => e.amount) ∘ (fun e =>
      if e.category == name then { e with category := "Other" } else e))
      = fun e : Expense => e.amount := by
    funext e
    by_cases hc : e.category = name
    · simp [hc]
    · simp [hc]
  rw [hcomp]

lemma delete_category_eval (m : BudgetMonth) (name : String)
    (hmem : dictMem m.categories name = true)
    (hexp : m.category_has_expenses name = true) :
    m.delete_category name true =
      ({ m with
          categories := dictErase
            (if dictMem m.categories "Other" then m.categories
             else m.categories ++ [("Other", Category.mk "Other" "fixed" (10^18))]) name,
          expenses := m.expenses.map (fun e =>
            if e.category == name then { e with category := "Other" } else e) },
       true, "Category " ++ name ++ " deleted successfully.") := by
  unfold BudgetMonth.delete_category
  rw [if_neg (fun hc => hc hmem), if_pos hexp, if_neg (fun hc => hc rfl)]

/-- C1 (amended): for any category name other than Other that is present and
has expenses, delete_category with move_to_other = true succeeds, guarantees
an Other category (created with the huge fixed cap when absent), reassigns
exactly the expenses that referenced the name to Other, removes the name,
preserves total_expenses, and leaves no expense referencing the name. -/
theorem delete_category_migrates (m : BudgetMonth) (name : String)
    (hmem : dictMem m.categories name = true)
    (hexp : m.category_has_expenses name = true)
    (hother : name ≠ "Other") :
    (m.delete_category name true).2.1 = true ∧
    dictMem (m.delete_category name true).1.categories "Other" = true ∧
    (dictMem m.categories "Other" = false →
      dictLookup (m.delete_category name true).1.categories "Other"
        = some ⟨"Other", "fixed", 10^18⟩) ∧
    (m.delete_category name true).1.expenses
      = m.expenses.map (fun e =>
          if e.category == name then { e with category := "Other" } else e) ∧
    dictMem (m.delete_category name true).1.categories name = false ∧
    (m.delete_category name true).1.total_expenses = m.total_expenses ∧
    ∀ e ∈ (m.delete_category name true).1.expenses, e.category ≠ name := by
  have e1 := delete_category_eval m name hmem hexp
  have hons : ("Other" : String) ≠ name := fun hc => hother hc.symm
  refine ⟨by rw [e1], ?_, ?_, by rw [e1], ?_, ?_, ?_⟩
  · rw [e1]
    show dictMem (dictErase _ name) "Other" = true
    rw [dictMem_erase_ne _ name "Other" hons]
    by_cases h2 : dictMem m.categories "Other"
    · rw [if_pos h2]
      exact h2
    · rw [if_neg h2, dictMem_append_single]
      simp
  · intro h2
    rw [e1]
    show dictLookup (dictErase _ name) "Other" = _
    rw [if_neg (by rw [h2]; exact fun hc => Bool.false_ne_true hc)]
    rw [dictErase_append]
    have hkeep : dictErase [("Other", Category.mk "Other" "fixed" (10^18))] name
        = [("Other", Category.mk "Other" "fixed" (10^18))] := by
      unfold dictErase
      rw [List.filter_cons]
      rw [if_pos (by simp [hons])]
      rfl
    rw [hkeep]
    apply dictLookup_append_self
    rw [dictMem_erase_ne _ name "Other" hons]
    exact h2
  · rw [e1]
    exact dictMem_erase_self _ name
  · rw [e1]
    unfold BudgetMonth.total_expenses
    exact total_map_reassign m.expenses name
  · intro e he
    rw [e1] at he
    rcases List.mem_map.mp he with ⟨x, hx, rfl⟩
    by_cases hc : x.category == name
    · rw [if_pos hc]
      exact hons
    · rw [if_neg hc]
      intro hxe
      exact hc (beq_iff_eq.mpr hxe)

/-- Witness for C1 (amended): deleting Food with migration in a month holding
one Food expense preserves the expense total. -/
theorem delete_category_migrates_witness :
    (monthFood.delete_category "Food" true).1.total_expenses = monthFood.total_expenses :=
  (delete_category_migrates monthFood "Food" (by decide) (by decide)
    (by decide)).2.2.2.2.2.1

/-- C1 counterexample: deleting the category Other itself, with migration on,
succeeds yet leaves its expense referencing the deleted name Other, which is
no longer in the category set. -/
theorem delete_other_orphan :
    (monthOnlyOther.delete_category "Other" true).2.1 = true ∧
    ((monthOnlyOther.delete_category "Other" true).1.expenses.map (fun e => e.category))
      = ["Other"] ∧
    dictMem (monthOnlyOther.delete_category "Other" true).1.categories "Other" = false := by
  refine ⟨?_, ?_, ?_⟩ <;> decide

lemma foldl_bumpStatus (f : String × Category → Status) (cs : List (String × Category))
    (acc : StatusCounts) :
    cs.foldl (fun counts p => bumpStatus counts (f p)) acc =
      ⟨acc.safe + (cs.filter (fun p => f p == Status.safe)).length,
       acc.alert + (cs.filter (fun p => f p == Status.alert)).length,
       acc.warning + (cs.filter (fun p => f p == Status.warning)).length,
       acc.danger + (cs.filter (fun p => f p == Status.danger)).length⟩ := by
  induction cs generalizing acc with
  | nil => simp
  | cons p rest ih =>
    rw [List.foldl_cons, ih]
    cases h : f p <;>
      simp [bumpStatus, h, List.filter_cons] <;> omega

/-- C5 (amended): with a budget set, each bucket of status_summary_counts
equals the number of categories whose status (per the section 4.4 function,
over the category spend total and its limit) is that bucket; categories whose
status is info are counted in no bucket, because the counts dict of the
source has no info key. With no budget the counts are all zero. -/
theorem status_summary_counts_spec (m : BudgetMonth) :
    (m.budget = none → m.status_summary_counts = ⟨0, 0, 0, 0⟩) ∧
    (∀ b, m.budget = some b →
      (m.status_summary_counts.safe
          = (m.categories.filter (fun p => statusOfCat m b p == Status.safe)).length ∧
       m.status_summary_counts.alert
          = (m.categories.filter (fun p => statusOfCat m b p == Status.alert)).length ∧
       m.status_summary_counts.warning
          = (m.categories.filter (fun p => statusOfCat m b p == Status.warning)).length ∧
       m.status_summary_counts.danger
          = (m.categories.filter (fun p => statusOfCat m b p == Status.danger)).length)) := by
  constructor
  · intro h
    unfold BudgetMonth.status_summary_counts
    rw [h]
  · intro b hb
    have hcounts : m.status_summary_counts
        = m.categories.foldl (fun counts p => bumpStatus counts (statusOfCat m b p))
            ⟨0, 0, 0, 0⟩ := by
      unfold BudgetMonth.status_summary_counts
      rw [hb]
      rfl
    rw [hcounts, foldl_bumpStatus (statusOfCat m b) m.categories ⟨0, 0, 0, 0⟩]
    exact ⟨by simp, by simp, by simp, by simp⟩

/-- Witness for C5 (amended): in the Food month the safe bucket equals the
number of safe-status categories. -/
theorem status_summary_counts_spec_witness :
    monthFood.status_summary_counts.safe
      = (monthFood.categories.filter
          (fun p => statusOfCat monthFood 1000 p == Status.safe)).length :=
  ((status_summary_counts_spec monthFood).2 1000 rfl).1

/-- C5 counterexample: with the budget set, a category whose limit is 0 gets
status info and is counted in no bucket, so the bucket counts do not cover
every category. -/
theorem info_category_not_counted :
    monthZeroLimit.budget = some 100 ∧
    monthZeroLimit.categories.length = 1 ∧
    monthZeroLimit.status_summary_counts.safe + monthZeroLimit.status_summary_counts.alert
      + monthZeroLimit.status_summary_counts.warning
      + monthZeroLimit.status_summary_counts.danger = 0 := by
  refine ⟨rfl, rfl, ?_⟩
  decide

lemma removeFirstById_sublist (es : List Expense) (i : Nat) :
    (removeFirstById es i).1.Sublist es := by
  induction es with
  | nil => simp [removeFirstById]
  | cons e rest ih =>
    unfold removeFirstById
    by_cases hc : e.expense_id == i
    · rw [if_pos hc]
      exact List.sublist_cons_self e rest
    · rw [if_neg hc]
      exact ih.cons₂ e

lemma applyLedgerOp_budget (m : BudgetMonth) (op : LedgerOp) :
    (applyLedgerOp m op).budget = m.budget := by
  unfold applyLedgerOp
  cases op with
  | addExp d a c ds =>
    dsimp only
    split_ifs with h1 h2
    · rfl
    · cases hb : m.budget with
      | none => exact hb
      | some b =>
        dsimp only
        split_ifs with h3
        · exact hb
        · exact hb
    · rfl
  | delExp i => rfl
  | editExp i a c ds =>
    dsimp only
    split_ifs with h1
    · rfl
    · rfl

lemma applyLedgerOp_inv (m : BudgetMonth) (b : ℚ) (op : LedgerOp)
    (hop : op.isEdit = false) (hb : m.budget = some b) (h : ledgerInv m b) :
    ledgerInv (applyLedgerOp m op) b := by
  obtain ⟨htot, hpos⟩ := h
  cases op with
  | editExp i a c ds => simp [LedgerOp.isEdit] at hop
  | delExp i =>
    have hsub := removeFirstById_sublist m.expenses i
    constructor
    · have hnn : ∀ x ∈ m.expenses.map (fun e => e.amount), 0 ≤ x := by
        intro x hx
        rcases List.mem_map.mp hx with ⟨e, he, rfl⟩
        exact le_of_lt (hpos e he)
      have hle := List.Sublist.sum_le_sum
        (hsub.map (fun e => e.amount)) hnn
      exact le_trans hle htot
    · intro e he
      exact hpos e (hsub.subset he)
  | addExp d a c ds =>
    unfold applyLedgerOp
    dsimp only
    split_ifs with h1 h2
    · exact ⟨htot, hpos⟩
    · rw [hb]
      dsimp only
      split_ifs with h3
      · exact ⟨htot, hpos⟩
      · have h4 : m.total_expenses + a ≤ b + eps := not_lt.mp h3
        constructor
        · show ((m.expenses ++ [(⟨m.next_expense_id, d, a, c, ds.strip⟩ : Expense)]).map
              (fun e => e.amount)).sum ≤ b + eps
          rw [List.map_append, List.sum_append]
          have h5 : m.total_expenses = (m.expenses.map (fun e => e.amount)).sum := rfl
          simp only [List.map_cons, List.map_nil, List.sum_cons, List.sum_nil]
          rw [← h5]
          linarith
        · intro e he
          rcases List.mem_append.mp he with he | he
          · exact hpos e he
          · rcases List.mem_singleton.mp he with rfl
            exact not_le.mp h1
    · exact ⟨htot, hpos⟩

lemma runLedger_inv (b : ℚ) (ops : List LedgerOp) :
    ∀ m : BudgetMonth, (∀ op ∈ ops, op.isEdit = false) → m.budget = some b →
      ledgerInv m b → ledgerInv (runLedger m ops) b := by
  induction ops with
  | nil =>
    intro m _ _ h
    exact h
  | cons op rest ih =>
    intro m hops hb h
    show ledgerInv (runLedger (applyLedgerOp m op) rest) b
    exact ih (applyLedgerOp m op) (fun o ho => hops o (List.mem_cons_of_mem _ ho))
      (by rw [applyLedgerOp_budget]; exact hb)
      (applyLedgerOp_inv m b op (hops op (List.mem_cons_self _ _)) hb h)

/-- C2 (amended): across any sequence of validated add-expense and
delete-expense operations the expense total stays at most budget + 1e-9
(in particular after every successful add_expense); the edit path is excluded
because it performs no budget check and can break the ceiling. -/
theorem spend_ceiling_add_delete (m : BudgetMonth) (b : ℚ) (ops : List LedgerOp)
    (hops : ∀ op ∈ ops, op.isEdit = false)
    (hb : m.budget = some b) (h : ledgerInv m b) :
    (runLedger m ops).total_expenses ≤ b + eps ∧ ledgerInv (runLedger m ops) b :=
  have hinv := runLedger_inv b ops m hops hb h
  ⟨hinv.1, hinv⟩

/-- Witness for C2 (amended): one validated 100 SAR add in the budget-1000
month keeps the total under the ceiling. -/
theorem spend_ceiling_add_delete_witness :
    (runLedger monthAlloc [LedgerOp.addExp "2024-05-01" 100 "Food" ""]).total_expenses
      ≤ 1000 + eps :=
  (spend_ceiling_add_delete monthAlloc 1000 [LedgerOp.addExp "2024-05-01" 100 "Food" ""]
    (by
      intro op hop
      rw [List.mem_singleton] at hop
      subst hop
      rfl)
    rfl
    ⟨by simp [monthAlloc, BudgetMonth.total_expenses]; norm_num [eps],
     by intro e he; simp [monthAlloc] at he⟩).1

/-- C2 counterexample: the edit form performs no budget check, so editing the
100 SAR expense of the budget-1000 month to 2000 SAR drives the total past
budget + 1e-9 even though the month satisfied the ceiling before. -/
theorem edit_breaks_spend_ceiling :
    monthFood.budget = some 1000 ∧
    monthFood.total_expenses ≤ 1000 + eps ∧
    (applyLedgerOp monthFood (LedgerOp.editExp 1 2000 "Food" "x")).total_expenses
      > 1000 + eps := by
  refine ⟨rfl, ?_, ?_⟩
  · simp [monthFood, BudgetMonth.total_expenses]
    norm_num [eps]
  · have he : applyLedgerOp monthFood (LedgerOp.editExp 1 2000 "Food" "x")
        = { monthFood with
            expenses := editFirstById monthFood.expenses 1 2000 "Food" "x" } := by
      unfold applyLedgerOp
      dsimp only
      rw [if_neg (by norm_num)]
    rw [he]
    show ((editFirstById monthFood.expenses 1 2000 "Food" "x").map
        (fun e => e.amount)).sum > 1000 + eps
    norm_num [monthFood, editFirstById, eps]

lemma runIdOps_spec (ops : List IdOp) :
    ∀ m : BudgetMonth, idInv m →
      (runIdOps m ops).2 = List.range' m.next_expense_id (countAdds ops) ∧
      idInv (runIdOps m ops).1 := by
  induction ops with
  | nil =>
    intro m h
    exact ⟨rfl, h⟩
  | cons op rest ih =>
    intro m h
    cases op with
    | del i =>
      have hsub := removeFirstById_sublist m.expenses i
      have h2 : idInv (m.delete_expense_by_id i).1 := by
        obtain ⟨hlt, hpw⟩ := h
        constructor
        · intro e he
          exact hlt e (hsub.subset he)
        · exact hpw.sublist (hsub.map (fun e => e.expense_id))
      refine ⟨?_, (ih _ h2).2⟩
      show (runIdOps (m.delete_expense_by_id i).1 rest).2 = _
      rw [(ih _ h2).1]
      rfl
    | add d a c ds =>
      have h2 : idInv (m.add_expense d a c ds).1 := by
        obtain ⟨hlt, hpw⟩ := h
        constructor
        · intro e he
          show e.expense_id < m.next_expense_id + 1
          rcases List.mem_append.mp he with he | he
          · exact Nat.lt_succ_of_lt (hlt e he)
          · rcases List.mem_singleton.mp he with rfl
            exact Nat.lt_succ_self _
        · show ((m.expenses ++ [(⟨m.next_expense_id, d, a, c, ds.strip⟩ : Expense)]).map
              (fun e => e.expense_id)).Pairwise (· < ·)
          rw [List.map_append, List.pairwise_append]
          refine ⟨hpw, List.pairwise_singleton _ _, ?_⟩
          intro x hx y hy
          rcases List.mem_map.mp hx with ⟨e, he, rfl⟩
          simp only [List.map_cons, List.map_nil, List.mem_singleton] at hy
          rw [hy]
          exact hlt e he
      refine ⟨?_, (ih _ h2).2⟩
      show ((m.add_expense d a c ds).2.expense_id
          :: (runIdOps (m.add_expense d a c ds).1 rest).2)
          = List.range' m.next_expense_id (countAdds rest + 1)
      rw [(ih _ h2).1, List.range'_succ m.next_expense_id (countAdds rest) 1]
      rfl

/-- C7: from a fresh month, any sequence of add_expense and
delete_expense_by_id operations assigns the ids 1, 2, ... in order (the trace
of assigned ids is the range from 1, so no id is ever assigned twice, even
after deletes), and the stored expense ids are strictly increasing, hence
unique within the month. -/
theorem expense_ids_sequential (key : String) (ops : List IdOp) :
    (runIdOps (BudgetMonth.mkEmpty key) ops).2 = List.range' 1 (countAdds ops) ∧
    (runIdOps (BudgetMonth.mkEmpty key) ops).2.Nodup ∧
    ((runIdOps (BudgetMonth.mkEmpty key) ops).1.expenses.map
        (fun e => e.expense_id)).Pairwise (· < ·) := by
  have h0 : idInv (BudgetMonth.mkEmpty key) := by
    constructor
    · intro e he
      simp [BudgetMonth.mkEmpty] at he
    · simp [BudgetMonth.mkEmpty]
  obtain ⟨htr, hinv⟩ := runIdOps_spec ops (BudgetMonth.mkEmpty key) h0
  refine ⟨htr, ?_, hinv.2⟩
  rw [htr]
  exact List.nodup_range' ..

end BudgetApp
